import Mathlib

/-!
Verification of the `hollow-api` repository core: the `DataBase` class
(an IndexedDB-backed per-plugin key-value store) and the `HollowEvent`
event bus declared by the package's type definitions.

The `DataBase` class is embedded from its TypeScript source: the IndexedDB
engine is modelled as an explicit state (a map from database name to a
versioned record of object stores), each asynchronous method becomes a
function from engine state to `Except` (promise rejection = `.error`,
resolution = `.ok`), and engine-level request failures are injected through
an explicit `fault` parameter (the outcome of the request's
`onsuccess`/`onerror` callbacks).
-/

/-- Embedding of JavaScript values stored in channels and object stores. -/
inductive JSValue where
  | vUndefined : JSValue
  | vNull : JSValue
  | vBool (b : Bool) : JSValue
  | vNum (n : Int) : JSValue
  | vStr (s : String) : JSValue
deriving DecidableEq

/-- Engine-level errors (`DOMException`s) that an IndexedDB request or an
open request can report. `versionError` is the error the engine raises when
a database is opened at a version lower than its on-disk version;
`notFoundError` is raised by `db.transaction` when the named object store
does not exist; `requestError` stands for any other engine failure. -/
inductive DOMErr where
  | versionError : DOMErr
  | notFoundError : DOMErr
  | requestError (code : Nat) : DOMErr
deriving DecidableEq

/-- An IndexedDB object store: a key-value map. -/
def ObjectStore : Type := String → Option JSValue

/-- A physical IndexedDB database: its on-disk version and its object
stores, keyed by store name. -/
structure IDBDatabaseRec where
  version : Nat
  stores : String → Option ObjectStore

/-- The IndexedDB engine state: all physical databases, keyed by name. -/
def IDBState : Type := String → Option IDBDatabaseRec

/-- A fresh engine with no databases (nothing on disk). -/
def emptyIDB : IDBState := fun _ => none

/-- An object store with no records. -/
def emptyStore : ObjectStore := fun _ => none

/-- Embedding of the `DataBase` class's fields:
`dbName`, `dbVersion` and `storeName` (declared with initializer `"Cards"`). -/
structure DataBase where
  dbName : String
  dbVersion : Nat
  storeName : String

/-- Embedding of the class constructor:
`this.dbName = pluginName + "_DB"; this.dbVersion = version;` with the
field initializer `storeName = "Cards"`. -/
def DataBase.new (pluginName : String) (version : Nat) : DataBase :=
  { dbName := pluginName ++ "_DB", dbVersion := version, storeName := "Cards" }

/-- Embedding of the `onupgradeneeded` handler together with the engine's
version bump: the engine sets the database version to the requested one,
and the handler runs
`if (!db.objectStoreNames.contains(this.storeName)) db.createObjectStore(this.storeName)`. -/
def runUpgrade (db : IDBDatabaseRec) (storeName : String) (newVersion : Nat) :
    IDBDatabaseRec :=
  { version := newVersion,
    stores :=
      match db.stores storeName with
      | some _ => db.stores
      | none => fun n => if n = storeName then some emptyStore else db.stores n }

/-- Embedding of `openDataBase`: `indexedDB.open(this.dbName, this.dbVersion)`.
Engine semantics: a nonexistent database is created (at version 0) and
upgraded to the requested version; an existing database with a lower
version is upgraded; an equal version opens directly; a higher on-disk
version makes the open request error (`onerror` → the promise rejects). -/
def DataBase.openDataBase (d : DataBase) (st : IDBState) :
    Except DOMErr (IDBState × IDBDatabaseRec) :=
  match st d.dbName with
  | none =>
      let db := runUpgrade { version := 0, stores := fun _ => none } d.storeName d.dbVersion
      .ok (fun n => if n = d.dbName then some db else st n, db)
  | some db =>
      if d.dbVersion < db.version then
        .error .versionError
      else if db.version < d.dbVersion then
        let db2 := runUpgrade db d.storeName d.dbVersion
        .ok (fun n => if n = d.dbName then some db2 else st n, db2)
      else
        .ok (st, db)

/-- Embedding of `putData`: `await openDataBase()` (a rejection propagates
through the `async` method), then a `readwrite` transaction on
`this.storeName` (which throws if the store does not exist), then
`store.put(value, key)` with `onsuccess => resolve(true)` and
`onerror => resolve(false)`. `fault` is the injected outcome of the put
request: `some e` means the request errored. -/
def DataBase.putData (d : DataBase) (st : IDBState) (key : String) (value : JSValue)
    (fault : Option DOMErr) : Except DOMErr (IDBState × Bool) :=
  match d.openDataBase st with
  | .error e => .error e
  | .ok (st1, db) =>
      match db.stores d.storeName with
      | none => .error .notFoundError
      | some s =>
          match fault with
          | some _ => .ok (st1, false)
          | none =>
              let s2 : ObjectStore := fun k => if k = key then some value else s k
              let db2 : IDBDatabaseRec :=
                { db with stores := fun n => if n = d.storeName then some s2 else db.stores n }
              .ok (fun n => if n = d.dbName then some db2 else st1 n, true)

/-- Embedding of `getData`: `await openDataBase()`, a `readonly` transaction
on `this.storeName`, then `store.get(key)` with
`onsuccess => resolve(request.result)` (the engine reports `undefined` for
an absent key) and `onerror => reject(error)`. -/
def DataBase.getData (d : DataBase) (st : IDBState) (key : String)
    (fault : Option DOMErr) : Except DOMErr (IDBState × Option JSValue) :=
  match d.openDataBase st with
  | .error e => .error e
  | .ok (st1, db) =>
      match db.stores d.storeName with
      | none => .error .notFoundError
      | some s =>
          match fault with
          | some e => .error e
          | none => .ok (st1, s key)

/-- Embedding of `deleteData`: `await openDataBase()`, a `readwrite`
transaction on `this.storeName`, then `store.delete(key)` with
`onsuccess => resolve(true)` and `onerror => resolve(false)`; the engine's
delete request succeeds whether or not the key exists. -/
def DataBase.deleteData (d : DataBase) (st : IDBState) (key : String)
    (fault : Option DOMErr) : Except DOMErr (IDBState × Bool) :=
  match d.openDataBase st with
  | .error e => .error e
  | .ok (st1, db) =>
      match db.stores d.storeName with
      | none => .error .notFoundError
      | some s =>
          match fault with
          | some _ => .ok (st1, false)
          | none =>
              let s2 : ObjectStore := fun k => if k = key then none else s k
              let db2 : IDBDatabaseRec :=
                { db with stores := fun n => if n = d.storeName then some s2 else db.stores n }
              .ok (fun n => if n = d.dbName then some db2 else st1 n, true)

/-- Modelled from the spec: `deleteDatabase()` is declared in the `DataBase`
interface of `hollow.d.ts` but has no implementation in the repository
sources. Per the spec it removes the entire physical database and every
partition, resolving `true` on success and `false` on failure. -/
def DataBase.deleteDatabase (d : DataBase) (st : IDBState)
    (fault : Option DOMErr) : IDBState × Bool :=
  match fault with
  | some _ => (st, false)
  | none => (fun n => if n = d.dbName then none else st n, true)

/-- The resolution/rejection outcome of a `DataBase` method, with the
engine state erased: `.error e` is a rejected promise, `.ok a` a resolved
one. -/
def resOf {α : Type} : Except DOMErr (IDBState × α) → Except DOMErr α
  | .error e => .error e
  | .ok (_, a) => .ok a

/-- The engine state after a `DataBase` method ran: the method's output
state if it resolved, the input state if the open request rejected before
any transaction. -/
def stAfter {α : Type} (st : IDBState) : Except DOMErr (IDBState × α) → IDBState
  | .error _ => st
  | .ok (st1, _) => st1

/-- The engine state after an open attempt. -/
def openStateOf (d : DataBase) (st : IDBState) : IDBState :=
  match d.openDataBase st with
  | .error _ => st
  | .ok (st1, _) => st1

/-- Observation: the partition named `sn` of database `dbn`, if both exist. -/
def partAt (st : IDBState) (dbn sn : String) : Option ObjectStore :=
  match st dbn with
  | none => none
  | some db => db.stores sn

/-- Observation: the value stored under `k` in partition `sn` of database
`dbn`, if present. -/
def partLookup (st : IDBState) (dbn sn k : String) : Option JSValue :=
  match partAt st dbn sn with
  | none => none
  | some s => s k

/-!
The event bus. `hollow.d.ts` only declares the `HollowEvent` type (its
doc comments state the behavior of `emit` and `toggle`); no implementation
exists in the repository sources, so the bus is modelled from the spec.
Listeners are modelled as pure functions from the payload to their return
value (`vUndefined` standing for a `void`/`undefined` return), tagged with
an identifier; an emission additionally produces a trace of the listener
invocations it performed, in order, so that "invokes every currently
registered listener synchronously in registration order" is observable.
-/

/-- A registered listener: an identifier (reference identity) and its pure
behavior on the emitted payload. -/
structure BusListener where
  id : Nat
  f : JSValue → JSValue

/-- Modelled from the spec: a channel of the event bus, holding the
last-emitted value (`vUndefined` until the first emit) and the ordered
listener list. -/
structure Channel where
  lastValue : JSValue
  listeners : List BusListener

/-- A channel nobody has touched yet. -/
def freshChannel : Channel := { lastValue := .vUndefined, listeners := [] }

/-- Modelled from the spec: the bus maps every event name to a channel;
channels are created implicitly, so the map is total. -/
def Bus : Type := String → Channel

/-- A value counts as unusable for the emitter's return channel when it is
`null` or `undefined`. -/
def isNullish : JSValue → Bool
  | .vUndefined => true
  | .vNull => true
  | _ => false

/-- Modelled from the spec: invoke every listener of the list in order with
`data`, recording each invocation `(id, payload)` in a trace, and combine
the returned values so that the result is the first
non-null/non-undefined value produced, or `vUndefined` when none is. -/
def emitOn (ls : List BusListener) (data : JSValue) :
    List (Nat × JSValue) × JSValue :=
  match ls with
  | [] => ([], .vUndefined)
  | l :: rest =>
      let r := l.f data
      let (tr, res) := emitOn rest data
      ((l.id, data) :: tr, if isNullish r then res else r)

/-- The first non-null/non-undefined value of a list of listener returns,
or `vUndefined` when there is none (the declarative reading of the spec's
"first one wins" aggregation). -/
def firstNonNullish (rs : List JSValue) : JSValue :=
  match rs.find? (fun r => !isNullish r) with
  | some r => r
  | none => .vUndefined

/-- Modelled from the spec: `emit(eventName, data)` stores `data` as the
channel's `lastValue`, then invokes every currently registered listener
synchronously in registration order passing `data`, and returns the first
non-null/non-undefined listener return value (or `undefined`). The result
is the updated bus, the invocation trace, and the emitter's return value. -/
def emit (bus : Bus) (name : String) (data : JSValue) :
    Bus × List (Nat × JSValue) × JSValue :=
  let ch := bus name
  let (tr, res) := emitOn ch.listeners data
  (fun n => if n = name then { ch with lastValue := data } else bus n, tr, res)

/-- Modelled from the spec: `toggle(eventName)` / `reverse(eventName)` —
if the channel's `lastValue` is strictly boolean, flip it and re-emit the
flipped value exactly as `emit` would; otherwise do nothing (no state
change, no listener invocation). -/
def toggle (bus : Bus) (name : String) :
    Bus × List (Nat × JSValue) × JSValue :=
  match (bus name).lastValue with
  | .vBool b => emit bus name (.vBool (!b))
  | _ => (bus, [], .vUndefined)


/-!
Concrete engine states and buses used to evaluate the theorems on
explicit inputs.
-/

/-- A concrete on-disk database at version 1 holding an empty `"Cards"`
partition — exactly what the class creates on first open at version 1. -/
def dbW : IDBDatabaseRec :=
  { version := 1, stores := fun n => if n = "Cards" then some emptyStore else none }

/-- A concrete engine state where `"p_DB"` exists at version 1. -/
def stW : IDBState := fun n => if n = "p_DB" then some dbW else none

/-- A concrete on-disk database at version 2 with an empty `"Cards"`
partition. -/
def dbW2 : IDBDatabaseRec :=
  { version := 2, stores := fun n => if n = "Cards" then some emptyStore else none }

/-- A concrete engine state where `"p_DB"` exists at version 2. -/
def stW2 : IDBState := fun n => if n = "p_DB" then some dbW2 else none

/-- A concrete bus: channel `"flag"` holds the boolean `true` and one
listener, channel `"greet"` holds the string `"hello"`. -/
def busW : Bus := fun n =>
  if n = "flag" then { lastValue := .vBool true, listeners := [⟨0, fun x => x⟩] }
  else if n = "greet" then { lastValue := .vStr "hello", listeners := [] }
  else freshChannel

/-!
Helper lemmas about the open/upgrade step.
-/

/-- The upgrade step leaves the database at the requested version. -/
theorem runUpgrade_version (db : IDBDatabaseRec) (sn : String) (v : Nat) :
    (runUpgrade db sn v).version = v := rfl

/-- A successful open always yields a handle whose version is the requested
one: a fresh database is created and upgraded to it, a lower on-disk
version is upgraded to it, an equal version is returned as-is, and a higher
on-disk version errors. -/
theorem open_ok_version {d : DataBase} {st st1 : IDBState} {db : IDBDatabaseRec}
    (h : d.openDataBase st = .ok (st1, db)) : db.version = d.dbVersion := by
  cases hdb : st d.dbName with
  | none =>
      simp only [DataBase.openDataBase, hdb, Except.ok.injEq, Prod.mk.injEq] at h
      rw [← h.2, runUpgrade_version]
  | some db0 =>
      simp only [DataBase.openDataBase, hdb] at h
      split at h
      · exact absurd h (by simp)
      · rename_i hlt
        split at h
        · simp only [Except.ok.injEq, Prod.mk.injEq] at h
          rw [← h.2, runUpgrade_version]
        · rename_i hge
          simp only [Except.ok.injEq, Prod.mk.injEq] at h
          rw [← h.2]
          omega

/-- After a successful open, the output engine state holds the returned
handle under the class's database name. -/
theorem open_ok_lookup {d : DataBase} {st st1 : IDBState} {db : IDBDatabaseRec}
    (h : d.openDataBase st = .ok (st1, db)) : st1 d.dbName = some db := by
  cases hdb : st d.dbName with
  | none =>
      simp only [DataBase.openDataBase, hdb, Except.ok.injEq, Prod.mk.injEq] at h
      rw [← h.1, ← h.2]
      simp
  | some db0 =>
      simp only [DataBase.openDataBase, hdb] at h
      split at h
      · exact absurd h (by simp)
      · split at h
        · simp only [Except.ok.injEq, Prod.mk.injEq] at h
          rw [← h.1, ← h.2]
          simp
        · simp only [Except.ok.injEq, Prod.mk.injEq] at h
          rw [← h.1, ← h.2]
          exact hdb

/-- Opening a database whose on-disk version already equals the requested
version is a pure read: no upgrade runs, the state and the record are
returned unchanged. -/
theorem open_eq_of_version {d : DataBase} {st : IDBState} {db : IDBDatabaseRec}
    (hdb : st d.dbName = some db) (hv : db.version = d.dbVersion) :
    d.openDataBase st = .ok (st, db) := by
  simp [DataBase.openDataBase, hdb, hv]

/-!
Claim theorems.
-/

/-- C1: ScopedStore round-trip. If `putData` resolved to `true`, an
immediately following `getData` on the same key (no interleaving
operations) resolves to the stored value; if `deleteData` resolved to
`true`, an immediately following `getData` on the same key resolves to
`undefined`. Quantified over every store name (the `storeName` field of
the instance), key and value. -/
theorem DataBase.put_then_get_delete_then_get (d : DataBase) (st : IDBState)
    (k : String) (v : JSValue)
    (hput : resOf (d.putData st k v none) = .ok true)
    (hdel : resOf (d.deleteData st k none) = .ok true) :
    resOf (d.getData (stAfter st (d.putData st k v none)) k none) = .ok (some v) ∧
    resOf (d.getData (stAfter st (d.deleteData st k none)) k none) = .ok none := by
  constructor
  · cases hopen : d.openDataBase st with
    | error e => simp [DataBase.putData, hopen, resOf] at hput
    | ok p =>
        obtain ⟨st1, db⟩ := p
        have hv := open_ok_version hopen
        cases hs : db.stores d.storeName with
        | none => simp [DataBase.putData, hopen, hs, resOf] at hput
        | some s =>
            simp only [DataBase.putData, hopen, hs, stAfter]
            simp [DataBase.getData, DataBase.openDataBase, hv, resOf]
  · cases hopen : d.openDataBase st with
    | error e => simp [DataBase.deleteData, hopen, resOf] at hdel
    | ok p =>
        obtain ⟨st1, db⟩ := p
        have hv := open_ok_version hopen
        cases hs : db.stores d.storeName with
        | none => simp [DataBase.deleteData, hopen, hs, resOf] at hdel
        | some s =>
            simp only [DataBase.deleteData, hopen, hs, stAfter]
            simp [DataBase.getData, DataBase.openDataBase, hv, resOf]

/-- Witness for C1: the round-trip evaluated on a fresh engine with the
constructed instance `new "p" 1`, key `"k"` and value `7`. -/
theorem DataBase.put_then_get_delete_then_get_witness :
    resOf ((DataBase.new "p" 1).getData
        (stAfter emptyIDB ((DataBase.new "p" 1).putData emptyIDB "k" (.vNum 7) none))
        "k" none) = .ok (some (.vNum 7)) ∧
    resOf ((DataBase.new "p" 1).getData
        (stAfter emptyIDB ((DataBase.new "p" 1).deleteData emptyIDB "k" none))
        "k" none) = .ok none :=
  DataBase.put_then_get_delete_then_get (DataBase.new "p" 1) emptyIDB "k" (.vNum 7)
    (by rfl) (by rfl)

/-- C2: mutating operations surface engine-level write/delete/transaction
failure only as the boolean `false` and never as a rejection: after a
successful open of an engine state holding the store, `putData` and
`deleteData` resolve (never reject) for every request outcome, resolving
to `true` exactly on the committed outcome; a committed `putData` stores
the value, and a failed request commits nothing. -/
theorem DataBase.mutations_signal_failure_as_false (d : DataBase) (st : IDBState)
    (k : String) (v : JSValue) (fault : Option DOMErr)
    (st1 : IDBState) (db : IDBDatabaseRec) (s : ObjectStore)
    (hopen : d.openDataBase st = .ok (st1, db))
    (hs : db.stores d.storeName = some s) :
    resOf (d.putData st k v fault) = .ok fault.isNone ∧
    resOf (d.deleteData st k fault) = .ok fault.isNone ∧
    partLookup (stAfter st (d.putData st k v none)) d.dbName d.storeName k = some v ∧
    (∀ e, stAfter st (d.putData st k v (some e)) = st1 ∧
          stAfter st (d.deleteData st k (some e)) = st1) := by
  refine ⟨?_, ?_, ?_, ?_⟩
  · cases fault with
    | none => simp [DataBase.putData, hopen, hs, resOf]
    | some e => simp [DataBase.putData, hopen, hs, resOf]
  · cases fault with
    | none => simp [DataBase.deleteData, hopen, hs, resOf]
    | some e => simp [DataBase.deleteData, hopen, hs, resOf]
  · simp only [DataBase.putData, hopen, hs, stAfter]
    simp [partLookup, partAt]
  · intro e
    constructor
    · simp [DataBase.putData, hopen, hs, stAfter]
    · simp [DataBase.deleteData, hopen, hs, stAfter]

/-- Witness for C2: on the concrete opened state `stW`, a faulted put
resolves to `false` (no rejection) and a clean put commits the value. -/
theorem DataBase.mutations_signal_failure_as_false_witness :
    resOf ((DataBase.new "p" 1).putData stW "k" (.vNum 7) (some (.requestError 0))) = .ok false ∧
    resOf ((DataBase.new "p" 1).deleteData stW "k" (some (.requestError 0))) = .ok false ∧
    partLookup (stAfter stW ((DataBase.new "p" 1).putData stW "k" (.vNum 7) none))
      "p_DB" "Cards" "k" = some (.vNum 7) := by
  have h := DataBase.mutations_signal_failure_as_false (DataBase.new "p" 1) stW "k"
    (.vNum 7) (some (.requestError 0)) stW dbW emptyStore (by rfl) (by rfl)
  exact ⟨h.1, h.2.1, h.2.2.1⟩

/-- C3: `getData` resolves to `undefined` when the key is absent (absence
is not an error), resolves to the stored value when present, and rejects
with the engine's own error when the engine reports a read error distinct
from not-found; the two outcomes are never conflated. -/
theorem DataBase.getData_absent_vs_error (d : DataBase) (st : IDBState) (k : String)
    (st1 : IDBState) (db : IDBDatabaseRec) (s : ObjectStore)
    (hopen : d.openDataBase st = .ok (st1, db))
    (hs : db.stores d.storeName = some s) :
    (s k = none → resOf (d.getData st k none) = .ok none) ∧
    (∀ v, s k = some v → resOf (d.getData st k none) = .ok (some v)) ∧
    (∀ e, d.getData st k (some e) = .error e) := by
  refine ⟨?_, ?_, ?_⟩
  · intro ha
    simp [DataBase.getData, hopen, hs, resOf, ha]
  · intro v hv
    simp [DataBase.getData, hopen, hs, resOf, hv]
  · intro e
    simp [DataBase.getData, hopen, hs]

/-- Witness for C3: on the concrete opened state `stW` with its empty
`"Cards"` partition, a get of an absent key resolves to `undefined` while
a faulted get rejects with the engine's error. -/
theorem DataBase.getData_absent_vs_error_witness :
    resOf ((DataBase.new "p" 1).getData stW "k" none) = .ok none ∧
    (DataBase.new "p" 1).getData stW "k" (some (.requestError 3)) =
      .error (.requestError 3) := by
  have h := DataBase.getData_absent_vs_error (DataBase.new "p" 1) stW "k"
    stW dbW emptyStore (by rfl) (by rfl)
  exact ⟨h.1 rfl, h.2.2 (.requestError 3)⟩

/-- C4: `deleteData` resolves to `true` whenever the delete transaction
commits — in particular also when the key is absent from the store — and
resolves to `false` on a failed request; a committed delete removes the
key. -/
theorem DataBase.deleteData_commit_semantics (d : DataBase) (st : IDBState)
    (k : String) (fault : Option DOMErr)
    (st1 : IDBState) (db : IDBDatabaseRec) (s : ObjectStore)
    (hopen : d.openDataBase st = .ok (st1, db))
    (hs : db.stores d.storeName = some s) :
    resOf (d.deleteData st k fault) = .ok fault.isNone ∧
    (s k = none → resOf (d.deleteData st k none) = .ok true) ∧
    partLookup (stAfter st (d.deleteData st k none)) d.dbName d.storeName k = none := by
  refine ⟨?_, ?_, ?_⟩
  · cases fault with
    | none => simp [DataBase.deleteData, hopen, hs, resOf]
    | some e => simp [DataBase.deleteData, hopen, hs, resOf]
  · intro ha
    simp [DataBase.deleteData, hopen, hs, resOf]
  · simp only [DataBase.deleteData, hopen, hs, stAfter]
    simp [partLookup, partAt]

/-- Witness for C4: deleting the absent key `"k"` on the concrete opened
state `stW` still resolves to `true`, and a faulted delete resolves to
`false`. -/
theorem DataBase.deleteData_commit_semantics_witness :
    resOf ((DataBase.new "p" 1).deleteData stW "k" none) = .ok true ∧
    resOf ((DataBase.new "p" 1).deleteData stW "k" (some (.requestError 1))) = .ok false := by
  have h0 := DataBase.deleteData_commit_semantics (DataBase.new "p" 1) stW "k" none
    stW dbW emptyStore (by rfl) (by rfl)
  have h1 := DataBase.deleteData_commit_semantics (DataBase.new "p" 1) stW "k"
    (some (.requestError 1)) stW dbW emptyStore (by rfl) (by rfl)
  exact ⟨h0.2.1 rfl, h1.1⟩

/-- C5: schema upgrade invariant. The object-store creation step runs only
when the requested version is greater than the on-disk version (at an equal
or higher on-disk version the engine state is unchanged); when it runs, the
missing partition is created and every existing partition and its data are
preserved; and on a fresh (nonexistent) database opened at its declared
version the required partition exists, so a `putData` against it succeeds. -/
theorem DataBase.open_upgrade_invariant (d : DataBase) (st : IDBState) :
    (∀ db, st d.dbName = some db → d.dbVersion ≤ db.version → openStateOf d st = st) ∧
    (∀ db, st d.dbName = some db → db.version < d.dbVersion →
        partAt (openStateOf d st) d.dbName d.storeName ≠ none ∧
        (∀ n s, partAt st d.dbName n = some s →
            partAt (openStateOf d st) d.dbName n = some s)) ∧
    (st d.dbName = none →
        partAt (openStateOf d st) d.dbName d.storeName = some emptyStore ∧
        (∀ k v, resOf (d.putData st k v none) = .ok true)) := by
  refine ⟨?_, ?_, ?_⟩
  · intro db hdb hle
    by_cases h1 : d.dbVersion < db.version
    · simp [openStateOf, DataBase.openDataBase, hdb, h1]
    · have h2 : ¬ db.version < d.dbVersion := by omega
      simp [openStateOf, DataBase.openDataBase, hdb, h1, h2]
  · intro db hdb hlt
    have h1 : ¬ d.dbVersion < db.version := by omega
    constructor
    · simp only [openStateOf, DataBase.openDataBase, hdb, h1, if_false, hlt, if_true]
      cases hc : db.stores d.storeName with
      | none => simp [partAt, runUpgrade, hc]
      | some s0 => simp [partAt, runUpgrade, hc]
    · intro n s hn
      simp only [partAt, hdb] at hn
      simp only [openStateOf, DataBase.openDataBase, hdb, h1, if_false, hlt, if_true]
      cases hc : db.stores d.storeName with
      | none =>
          by_cases hns : n = d.storeName
          · rw [hns] at hn
            rw [hn] at hc
            exact absurd hc (by simp)
          · simp [partAt, runUpgrade, hc, hns, hn]
      | some s0 =>
          simp [partAt, runUpgrade, hc, hn]
  · intro hdb
    constructor
    · simp [openStateOf, DataBase.openDataBase, hdb, partAt, runUpgrade]
    · intro k v
      simp [DataBase.putData, DataBase.openDataBase, hdb, runUpgrade, resOf]

/-- Witness for C5: an equal-version open of `stW` leaves the engine
unchanged; upgrading `stW` from version 1 to 2 preserves the existing empty
`"Cards"` partition; a fresh open at version 1 creates the `"Cards"`
partition and a first `putData` on a fresh engine resolves to `true`. -/
theorem DataBase.open_upgrade_invariant_witness :
    openStateOf (DataBase.new "p" 1) stW = stW ∧
    partAt (openStateOf (DataBase.new "p" 2) stW) "p_DB" "Cards" = some emptyStore ∧
    partAt (openStateOf (DataBase.new "p" 1) emptyIDB) "p_DB" "Cards" = some emptyStore ∧
    resOf ((DataBase.new "p" 1).putData emptyIDB "j" (.vStr "x") none) = .ok true :=
  ⟨(DataBase.open_upgrade_invariant (DataBase.new "p" 1) stW).1 dbW (by rfl) (by decide),
   ((DataBase.open_upgrade_invariant (DataBase.new "p" 2) stW).2.1 dbW (by rfl)
      (by decide)).2 "Cards" emptyStore (by rfl),
   ((DataBase.open_upgrade_invariant (DataBase.new "p" 1) emptyIDB).2.2 (by rfl)).1,
   ((DataBase.open_upgrade_invariant (DataBase.new "p" 1) emptyIDB).2.2 (by rfl)).2
      "j" (.vStr "x")⟩

/-- C10: if the open request errors because the on-disk version is greater
than the version passed to the constructor, `openDataBase` rejects, and
every CRUD method rejects with that same open error instead of resolving
to `false` or `undefined`. -/
theorem DataBase.open_error_propagates_to_crud (d : DataBase) (st : IDBState)
    (k : String) (v : JSValue) (fault : Option DOMErr) (db : IDBDatabaseRec)
    (hdb : st d.dbName = some db) (hver : d.dbVersion < db.version) :
    d.openDataBase st = .error .versionError ∧
    d.putData st k v fault = .error .versionError ∧
    d.getData st k fault = .error .versionError ∧
    d.deleteData st k fault = .error .versionError := by
  have hopen : d.openDataBase st = .error .versionError := by
    simp [DataBase.openDataBase, hdb, hver]
  exact ⟨hopen, by simp [DataBase.putData, hopen], by simp [DataBase.getData, hopen],
    by simp [DataBase.deleteData, hopen]⟩

/-- Witness for C10: opening `"p_DB"` (on disk at version 2 in `stW2`) at
the lower constructor version 1 makes every CRUD method reject with the
version error. -/
theorem DataBase.open_error_propagates_to_crud_witness :
    (DataBase.new "p" 1).openDataBase stW2 = .error .versionError ∧
    (DataBase.new "p" 1).putData stW2 "k" (.vNum 7) none = .error .versionError ∧
    (DataBase.new "p" 1).getData stW2 "k" none = .error .versionError ∧
    (DataBase.new "p" 1).deleteData stW2 "k" none = .error .versionError :=
  DataBase.open_error_propagates_to_crud (DataBase.new "p" 1) stW2 "k" (.vNum 7)
    none dbW2 (by rfl) (by decide)

/-- An open attempt never touches partitions other than the class's own
store name: for every database and every other store name, the partition
is unchanged. -/
theorem open_ok_partAt {d : DataBase} {st st1 : IDBState} {db : IDBDatabaseRec}
    (h : d.openDataBase st = .ok (st1, db)) :
    ∀ dbn sn, sn ≠ d.storeName → partAt st1 dbn sn = partAt st dbn sn := by
  intro dbn sn hsn
  cases hdb : st d.dbName with
  | none =>
      simp only [DataBase.openDataBase, hdb, Except.ok.injEq, Prod.mk.injEq] at h
      rw [← h.1]
      by_cases hd : dbn = d.dbName
      · subst hd
        simp [partAt, hdb, runUpgrade, hsn]
      · simp [partAt, hd]
  | some db0 =>
      simp only [DataBase.openDataBase, hdb] at h
      split at h
      · exact absurd h (by simp)
      · split at h
        · simp only [Except.ok.injEq, Prod.mk.injEq] at h
          rw [← h.1]
          by_cases hd : dbn = d.dbName
          · subst hd
            simp only [partAt, hdb]
            cases hc : db0.stores d.storeName with
            | none => simp [runUpgrade, hc, hsn]
            | some s0 => simp [runUpgrade, hc]
          · simp [partAt, hd]
        · simp only [Except.ok.injEq, Prod.mk.injEq] at h
          rw [← h.1]

/-- `putData` never writes to a partition other than the class's own store
name. -/
theorem putData_partAt_frame (d : DataBase) (st : IDBState) (k : String) (v : JSValue)
    (dbn sn : String) (hsn : sn ≠ d.storeName) :
    partAt (stAfter st (d.putData st k v none)) dbn sn = partAt st dbn sn := by
  cases hopen : d.openDataBase st with
  | error e => simp [DataBase.putData, hopen, stAfter]
  | ok p =>
      obtain ⟨st1, db⟩ := p
      have hpres := open_ok_partAt hopen dbn sn hsn
      cases hs : db.stores d.storeName with
      | none => simp [DataBase.putData, hopen, hs, stAfter]
      | some s =>
          simp only [DataBase.putData, hopen, hs, stAfter]
          rw [← hpres]
          by_cases hd : dbn = d.dbName
          · subst hd
            simp [partAt, open_ok_lookup hopen, hsn]
          · simp [partAt, hd]

/-- `deleteData` never writes to a partition other than the class's own
store name. -/
theorem deleteData_partAt_frame (d : DataBase) (st : IDBState) (k : String)
    (dbn sn : String) (hsn : sn ≠ d.storeName) :
    partAt (stAfter st (d.deleteData st k none)) dbn sn = partAt st dbn sn := by
  cases hopen : d.openDataBase st with
  | error e => simp [DataBase.deleteData, hopen, stAfter]
  | ok p =>
      obtain ⟨st1, db⟩ := p
      have hpres := open_ok_partAt hopen dbn sn hsn
      cases hs : db.stores d.storeName with
      | none => simp [DataBase.deleteData, hopen, hs, stAfter]
      | some s =>
          simp only [DataBase.deleteData, hopen, hs, stAfter]
          rw [← hpres]
          by_cases hd : dbn = d.dbName
          · subst hd
            simp [partAt, open_ok_lookup hopen, hsn]
          · simp [partAt, hd]

/-- A resolved `getData` read exactly the class's own partition: its result
is the content of that partition at the key in the post-open state. -/
theorem getData_ok_reads_own_store {d : DataBase} {st st1 : IDBState} {k : String}
    {r : Option JSValue} (h : d.getData st k none = .ok (st1, r)) :
    r = partLookup st1 d.dbName d.storeName k := by
  cases hopen : d.openDataBase st with
  | error e => simp [DataBase.getData, hopen] at h
  | ok p =>
      obtain ⟨st0, db⟩ := p
      cases hs : db.stores d.storeName with
      | none => simp [DataBase.getData, hopen, hs] at h
      | some s =>
          simp only [DataBase.getData, hopen, hs, Except.ok.injEq, Prod.mk.injEq] at h
          rw [← h.1, ← h.2]
          simp [partLookup, partAt, open_ok_lookup hopen, hs]

/-- C9 (implicit): every operation of the implemented class reads or
writes exactly one object store, the one named by the fixed constant
`"Cards"`, independent of the constructor's `pluginName` and `version`
arguments: the constructed instance's store name is `"Cards"`, `putData`
and `deleteData` leave every other partition of every database untouched,
and a resolved `getData` returns exactly the content of the `"Cards"`
partition, so no second partition can ever be addressed. -/
theorem DataBase.operations_touch_only_cards (p : String) (ver : Nat) (st : IDBState)
    (k : String) (v : JSValue) :
    (DataBase.new p ver).storeName = "Cards" ∧
    (∀ dbn sn, sn ≠ "Cards" →
        partAt (stAfter st ((DataBase.new p ver).putData st k v none)) dbn sn =
          partAt st dbn sn) ∧
    (∀ dbn sn, sn ≠ "Cards" →
        partAt (stAfter st ((DataBase.new p ver).deleteData st k none)) dbn sn =
          partAt st dbn sn) ∧
    (∀ st1 r, (DataBase.new p ver).getData st k none = .ok (st1, r) →
        r = partLookup st1 (p ++ "_DB") "Cards" k) := by
  refine ⟨rfl, ?_, ?_, ?_⟩
  · intro dbn sn hsn
    exact putData_partAt_frame _ st k v dbn sn hsn
  · intro dbn sn hsn
    exact deleteData_partAt_frame _ st k dbn sn hsn
  · intro st1 r h
    exact getData_ok_reads_own_store h

/-- Witness for C9: on the concrete state `stW`, writing and deleting under
key `"k"` leaves the unrelated partition `"Other"` unchanged, and a
concrete resolved get reads the `"Cards"` partition. -/
theorem DataBase.operations_touch_only_cards_witness :
    partAt (stAfter stW ((DataBase.new "p" 1).putData stW "k" (.vNum 7) none))
      "p_DB" "Other" = partAt stW "p_DB" "Other" ∧
    partAt (stAfter stW ((DataBase.new "p" 1).deleteData stW "k" none))
      "p_DB" "Other" = partAt stW "p_DB" "Other" ∧
    (none : Option JSValue) = partLookup stW "p_DB" "Cards" "k" := by
  have h := DataBase.operations_touch_only_cards "p" 1 stW "k" (.vNum 7)
  exact ⟨h.2.1 "p_DB" "Other" (by decide), h.2.2.1 "p_DB" "Other" (by decide),
    h.2.2.2 stW none (by rfl)⟩

/-- C8: `deleteDatabase()` resolves `true` on success and `false` on
failure, on success removes the entire physical database (and with it every
partition), and any `putData` call made after a completed delete succeeds
by transparently recreating the database from scratch, with the written
value retrievable from the recreated partition. -/
theorem DataBase.deleteDatabase_then_putData_recreates (d : DataBase) (st : IDBState)
    (k : String) (v : JSValue) :
    (d.deleteDatabase st none).2 = true ∧
    (∀ e, (d.deleteDatabase st (some e)).2 = false) ∧
    (d.deleteDatabase st none).1 d.dbName = none ∧
    resOf (d.putData (d.deleteDatabase st none).1 k v none) = .ok true ∧
    partLookup (stAfter (d.deleteDatabase st none).1
        (d.putData (d.deleteDatabase st none).1 k v none)) d.dbName d.storeName k =
      some v := by
  refine ⟨rfl, fun e => rfl, by simp [DataBase.deleteDatabase], ?_, ?_⟩
  · simp [DataBase.putData, DataBase.openDataBase, DataBase.deleteDatabase,
      runUpgrade, resOf]
  · simp only [DataBase.deleteDatabase]
    simp only [DataBase.putData, DataBase.openDataBase]
    simp [runUpgrade, stAfter, partLookup, partAt, emptyStore]

/-- C6: `emit(eventName, data)` stores `data` as the channel's `lastValue`,
invokes every currently registered listener in registration order passing
`data` (the invocation trace lists each registered listener exactly once,
in order, with payload `data`), and returns the value from the listener
nearest the front of the registration order that produced a
non-null/non-undefined value, or `undefined` if no listener produced one. -/
theorem emit_stores_invokes_in_order_returns_first (bus : Bus) (name : String)
    (data : JSValue) :
    ((emit bus name data).1 name).lastValue = data ∧
    (emit bus name data).2.1 = (bus name).listeners.map (fun l => (l.id, data)) ∧
    (emit bus name data).2.2 =
      firstNonNullish ((bus name).listeners.map (fun l => l.f data)) := by
  have key : ∀ ls : List BusListener,
      (emitOn ls data).1 = ls.map (fun l => (l.id, data)) ∧
      (emitOn ls data).2 = firstNonNullish (ls.map (fun l => l.f data)) := by
    intro ls
    induction ls with
    | nil => simp [emitOn, firstNonNullish]
    | cons l rest ih =>
        have hfind : ∀ (r : JSValue) (rs : List JSValue),
            firstNonNullish (r :: rs) = if isNullish r then firstNonNullish rs else r := by
          intro r rs
          cases hn : isNullish r with
          | true => simp [firstNonNullish, List.find?, hn]
          | false => simp [firstNonNullish, List.find?, hn]
        cases hn : isNullish (l.f data) with
        | true => simp [emitOn, hfind, hn, ih.1, ih.2]
        | false => simp [emitOn, hfind, hn, ih.1]
  obtain ⟨h1, h2⟩ := key (bus name).listeners
  refine ⟨by simp [emit], ?_, ?_⟩
  · simp [emit, h1]
  · simp [emit, h2]

/-- C7: `toggle`/`reverse` on a channel whose `lastValue` is strictly
boolean flips it and re-emits the flipped value to all current listeners
exactly as `emit` would; on a channel whose `lastValue` is not a boolean it
is a no-op: the bus is unchanged and no listener is invoked. -/
theorem toggle_flips_boolean_else_noop (bus : Bus) (name : String) :
    (∀ b, (bus name).lastValue = .vBool b →
        toggle bus name = emit bus name (.vBool (!b)) ∧
        ((toggle bus name).1 name).lastValue = .vBool (!b) ∧
        (toggle bus name).2.1 =
          (bus name).listeners.map (fun l => (l.id, JSValue.vBool (!b)))) ∧
    ((∀ b, (bus name).lastValue ≠ .vBool b) →
        toggle bus name = (bus, [], .vUndefined)) := by
  constructor
  · intro b hb
    have ht : toggle bus name = emit bus name (.vBool (!b)) := by
      simp [toggle, hb]
    refine ⟨ht, ?_, ?_⟩
    · rw [ht]
      exact (emit_stores_invokes_in_order_returns_first bus name (.vBool (!b))).1
    · rw [ht]
      exact (emit_stores_invokes_in_order_returns_first bus name (.vBool (!b))).2.1
  · intro hnb
    unfold toggle
    cases hv : (bus name).lastValue with
    | vBool b => exact absurd hv (hnb b)
    | vUndefined => rfl
    | vNull => rfl
    | vNum n => rfl
    | vStr s => rfl

/-- Witness for C7: on the concrete bus `busW`, toggling the boolean
channel `"flag"` re-emits `false`, while toggling the string channel
`"greet"` is a no-op. -/
theorem toggle_flips_boolean_else_noop_witness :
    toggle busW "flag" = emit busW "flag" (.vBool false) ∧
    toggle busW "greet" = (busW, [], .vUndefined) :=
  ⟨((toggle_flips_boolean_else_noop busW "flag").1 true rfl).1,
   (toggle_flips_boolean_else_noop busW "greet").2 (by intro b h; simp [busW] at h)⟩
